import Mathlib

/-!
Verification of `src/pixyz/losses/losses.py`: the symbolic loss-expression
algebra (expression-tree construction, input-variable bookkeeping, and the
environment-based evaluator).

Modelling conventions:
* Variable names are `String`s; tensors are 1-D lists of rationals (the
  subsystem treats losses as one value per batch element along the leading
  dimension); a Python number is a separate `Value.scalar`.
* The evaluation environment `x_dict` is an insertion-ordered association
  list with `dict`-style lookup and `dict.update` merging; environments are
  passed by value (the functional reading of the recursion in
  `Loss.eval` / `_get_eval`).
* Fallible Python code is modelled in `Except PyError`; each constructor of
  `PyError` corresponds to the Python exception class raised at that point.
* `torch.Tensor` division never raises, so rational division (with the
  `q / 0 = 0` convention standing in for `inf`) is used entrywise for
  tensors, while Python scalar division by zero raises `ZeroDivisionError`.
* Randomness consumed by `Distribution.sample` is abstracted by a seed
  argument `ω : Nat` threaded through evaluation.
-/

/-- A runtime value: a plain Python number, or a 1-D torch tensor whose
leading (= only) dimension is the batch dimension. -/
inductive Value where
  | scalar (q : ℚ)
  | tensor (t : List ℚ)
deriving DecidableEq, Repr

/-- The Python exceptions raised by `losses.py` and the tensor/number
operations it invokes. -/
inductive PyError where
  | valueError (msg : String)
  | keyError (key : String)
  | zeroDivisionError
  | attributeError
  | runtimeError
deriving DecidableEq, Repr

/-- The variable environment `x_dict`: a name-to-value mapping with
insertion order, as a Python `dict`. -/
abbrev Env := List (String × Value)

/-- Python's `list(x_dict.keys())`. -/
def envKeys (e : Env) : List String := e.map Prod.fst

/-- Lookup `x_dict[n]` as an `Option` (first binding of `n`). -/
def envLookup : Env → String → Option Value
  | [], _ => none
  | (k, v) :: rest, n => if k = n then some v else envLookup rest n

/-- Assignment `x_dict[k] = v`: replace the binding of `k` in place, or append it. -/
def envSet : Env → String → Value → Env
  | [], k, v => [(k, v)]
  | (k', v') :: rest, k, v =>
      if k' = k then (k, v) :: rest else (k', v') :: envSet rest k v

/-- Python's `x1.update(x2)`: merge `x2` into `x1`, the second dict overwriting the
first on key collision (`LossOperator._get_eval`, line 167). -/
def envUpdate (e₁ e₂ : Env) : Env :=
  e₂.foldl (fun acc p => envSet acc p.1 p.2) e₁

/-- The validation test `set(list(x_dict.keys())) >= set(input_var)` of
`Loss.eval` (line 81). -/
def validKeys (iv : List String) (e : Env) : Bool :=
  iv.all (fun n => (envKeys e).contains n)

/-- The message of the validation `ValueError` of `Loss.eval` (line 82). -/
def invalidMsg (e : Env) : String :=
  "Input keys are not valid, got " ++ String.intercalate ", " (envKeys e) ++ "."

/-- The four binary operator classes derived from `LossOperator`. -/
inductive OpKind where
  | add | sub | mul | div
deriving DecidableEq, Repr

/-- The four unary operator classes derived from `LossSelfOperator`. -/
inductive UnKind where
  | neg | abs | batchMean | batchSum
deriving DecidableEq, Repr

/-- A probability-distribution collaborator, as consumed by this subsystem:
`input_var`, `var`, `prob_text`, and `sample(x_dict, sample_shape, reparam,
return_all)`, the latter abstracted over a random seed `ω`. -/
structure Distribution where
  input_var : List String
  var : List String
  prob_text : String
  sample : Nat → Env → List Nat → Env

/-- The loss expression tree.  `pyNoneOperand` and `invalidOperand` model the
degenerate operand slots `LossOperator.__init__` can store: a literal `None`
second operand, and (through the `loss2 is None` escape on line 134) a raw
non-`Loss`, non-number object kept verbatim in the first slot.  Composite
nodes carry the `_input_var` list computed at construction time. -/
inductive LossT where
  | valueLoss (v : ℚ)
  | parameter (name : String)
  | pyNoneOperand
  | invalidOperand (typeName : String)
  | binOp (k : OpKind) (iv : List String) (l r : LossT)
  | unOp (k : UnKind) (iv : List String) (c : LossT)
  | setLoss (iv : List String) (c : LossT)
  | expectation (p : Distribution) (iv : List String) (f : LossT) (shape : List Nat)

/-- The stored `_input_var` of each node (`ValueLoss.__init__` sets `[]`,
`Parameter.__init__` sets `tolist(name)`; composite nodes store the list
computed by their constructor). -/
def LossT.input_var : LossT → List String
  | .valueLoss _ => []
  | .parameter n => [n]
  | .pyNoneOperand => []
  | .invalidOperand _ => []
  | .binOp _ iv _ _ => iv
  | .unOp _ iv _ => iv
  | .setLoss iv _ => iv
  | .expectation _ iv _ _ => iv

/-- Model of `sorted(set(xs), key=xs.index)` (lines 22 and 148): the distinct elements
of `xs` listed in order of first occurrence.  `sorted` orders the set's
elements by their first index in `xs`, which is exactly first-occurrence
deduplication; `firstOccurrenceDedup_unique` below makes this identification
formal. -/
def dedupFirst : List String → List String
  | [] => []
  | x :: xs => x :: (dedupFirst xs).filter (fun y => decide (y ≠ x))

/-- Pointwise rational arithmetic used inside tensors (torch semantics:
division is total, `q / 0 = 0` standing in for `inf`). -/
def OpKind.applyQ : OpKind → ℚ → ℚ → ℚ
  | .add, a, b => a + b
  | .sub, a, b => a - b
  | .mul, a, b => a * b
  | .div, a, b => a / b

/-- The arithmetic of `AddLoss`/`SubLoss`/`MulLoss`/`DivLoss._get_eval`
(`loss1 + loss2` etc.), with Python/torch broadcasting: scalar–scalar
division by zero raises `ZeroDivisionError`; tensor–tensor operations
require equal batch lengths (otherwise a torch `RuntimeError`). -/
def applyOp (k : OpKind) : Value → Value → Except PyError Value
  | .scalar a, .scalar b =>
      if k = .div ∧ b = 0 then .error .zeroDivisionError
      else .ok (.scalar (k.applyQ a b))
  | .scalar a, .tensor t => .ok (.tensor (t.map (fun x => k.applyQ a x)))
  | .tensor t, .scalar b => .ok (.tensor (t.map (fun x => k.applyQ x b)))
  | .tensor t₁, .tensor t₂ =>
      if t₁.length = t₂.length then
        .ok (.tensor (List.zipWith k.applyQ t₁ t₂))
      else .error .runtimeError

/-- Negation `-loss` (`NegLoss._get_eval`, line 243): defined on numbers and tensors. -/
def negValue : Value → Value
  | .scalar a => .scalar (-a)
  | .tensor t => .tensor (t.map (fun x => -x))

/-- The mean of a 1-D tensor over its leading (batch) dimension. -/
def tensorMean (t : List ℚ) : ℚ := t.sum / (t.length : ℚ)

/-- The unary operations of `NegLoss`/`AbsLoss`/`BatchMean`/`BatchSum`
`._get_eval`.  `loss.abs()`, `loss.mean()`, `loss.sum()` are tensor methods:
on a plain Python number they raise `AttributeError`. -/
def applyUn : UnKind → Value → Except PyError Value
  | .neg, v => .ok (negValue v)
  | .abs, .scalar _ => .error .attributeError
  | .abs, .tensor t => .ok (.tensor (t.map (fun x => |x|)))
  | .batchMean, .scalar _ => .error .attributeError
  | .batchMean, .tensor t => .ok (.scalar (tensorMean t))
  | .batchSum, .scalar _ => .error .attributeError
  | .batchSum, .tensor t => .ok (.scalar t.sum)

/-- Python's `torch.Size(shape).numel()`: the number of Monte Carlo draws. -/
def numel (shape : List Nat) : Nat := shape.foldl (fun a b => a * b) 1

/-- Model of `loss.view(self.sample_shape.numel(), -1).mean(dim=0)` (line 349):
separate the sample axis from the batch axis and average over the samples.
`view` requires the element count to be divisible by `n`. -/
def mcReduce (n : Nat) (t : List ℚ) : Except PyError Value :=
  if n ≠ 0 ∧ t.length % n = 0 then
    let cols := t.length / n
    .ok (.tensor ((List.range cols).map (fun j =>
      (((List.range n).map (fun i => t.getD (i * cols + j) 0)).sum) / (n : ℚ))))
  else .error .runtimeError

/-- Model of `self._get_eval(x_dict, **kwargs)` for every node class (lines 104, 118,
154–169, 177–209, 241–293, 304–305, 342–350).  The `expectation` branch
inlines the recursive call to the public `self._f.eval(samples_dict,
return_dict=True)` of line 345, including its key validation. -/
def getEval (ω : Nat) : LossT → Env → Except PyError (Value × Env)
  | .valueLoss v, x => .ok (.scalar v, x)
  | .parameter n, x =>
      match envLookup x n with
      | some v => .ok (v, x)
      | none => .error (.keyError n)
  | .pyNoneOperand, _ => .ok (.scalar 0, [])
  | .invalidOperand _, _ => .error .attributeError
  | .binOp k _ l r, x =>
      match getEval ω l x with
      | .error e => .error e
      | .ok (v₁, x₁) =>
          match getEval ω r x with
          | .error e => .error e
          | .ok (v₂, x₂) =>
              match applyOp k v₁ v₂ with
              | .error e => .error e
              | .ok v => .ok (v, envUpdate x₁ x₂)
  | .unOp k _ c, x =>
      match getEval ω c x with
      | .error e => .error e
      | .ok (v, x') =>
          match applyUn k v with
          | .error e => .error e
          | .ok v' => .ok (v', x')
  | .setLoss _ c, x => getEval ω c x
  | .expectation p _ f shape, x =>
      let samples := p.sample ω x shape
      if validKeys f.input_var samples then
        match getEval ω f samples with
        | .error e => .error e
        | .ok (v, lsd) =>
            match v with
            | .scalar _ => .error .attributeError
            | .tensor t =>
                match mcReduce (numel shape) t with
                | .error e => .error e
                | .ok r => .ok (r, envUpdate samples lsd)
      else .error (.valueError (invalidMsg samples))

/-- The public entry point `Loss.eval(x_dict, return_dict=True)` (lines
80–89): validate that the environment's keys cover `input_var`, then
delegate to `_get_eval`. -/
def eval (ω : Nat) (t : LossT) (x : Env) : Except PyError (Value × Env) :=
  if validKeys t.input_var x then getEval ω t x
  else .error (.valueError (invalidMsg x))

/-- An operand handed to `LossOperator.__init__` / `LossSelfOperator.__init__`:
a `Loss` instance, a plain number, `None`, or any other Python object
(identified by its type name, as used in the error message). -/
inductive Operand where
  | loss (t : LossT)
  | num (n : ℚ)
  | pyNone
  | other (typeName : String)

/-- The name of `type(operand)` as printed in the `ValueError` message of
`LossOperator.__init__`.  Subclass names of `Loss` and the number types are
flattened to `"Loss"` / `"Number"`. -/
def Operand.typeName : Operand → String
  | .loss _ => "Loss"
  | .num _ => "Number"
  | .pyNone => "NoneType"
  | .other ty => ty

/-- The message template (t1) cannot be operated with (t2) of lines 137 and 146. -/
def opErrMsg (t₁ t₂ : String) : String :=
  t₁ ++ " cannot be operated with " ++ t₂ ++ "."

/-- Model of `LossOperator.__init__(loss1, loss2)` (lines 127–152), block for block:
the first operand is kept if a `Loss`, promoted if a number, and otherwise
tolerated exactly when `loss2` is `None` (the literal test on line 134 reads
`isinstance(loss2, type(None))`); the second operand is kept, promoted, or
kept as `None`, anything else raising; finally the merged input-variable
list is deduplicated to first-occurrence order.  Each resolved first slot
also records `type(loss1)` after promotion (a number has become a
`ValueLoss`, hence a `Loss`), used by the second block's error message. -/
def mkLossOperator (k : OpKind) (o₁ o₂ : Operand) : Except PyError LossT := do
  let s₁ : LossT × List String × String ←
    match o₁ with
    | .loss t => .ok (t, t.input_var, "Loss")
    | .num n => .ok (.valueLoss n, [], "Loss")
    | .pyNone =>
        match o₂ with
        | .pyNone => .ok (.pyNoneOperand, [], "NoneType")
        | _ => .error (.valueError (opErrMsg o₁.typeName o₂.typeName))
    | .other ty =>
        match o₂ with
        | .pyNone => .ok (.invalidOperand ty, [], ty)
        | _ => .error (.valueError (opErrMsg o₁.typeName o₂.typeName))
  let s₂ : LossT × List String ←
    match o₂ with
    | .loss t => .ok (t, t.input_var)
    | .num n => .ok (.valueLoss n, [])
    | .pyNone => .ok (.pyNoneOperand, [])
    | .other ty => .error (.valueError (opErrMsg ty s₁.2.2))
  .ok (.binOp k (dedupFirst (s₁.2.1 ++ s₂.2)) s₁.1 s₂.1)

/-- Model of `LossSelfOperator.__init__(loss1)` (lines 213–227): `None` and
non-`Loss` non-number operands raise a bare `ValueError`; a number is
promoted to `ValueLoss`; the child's input-variable list is copied. -/
def mkLossSelfOperator (k : UnKind) (o : Operand) : Except PyError LossT :=
  match o with
  | .pyNone => .error (.valueError "")
  | .loss t => .ok (.unOp k t.input_var t)
  | .num n => .ok (.unOp k [] (.valueLoss n))
  | .other _ => .error (.valueError "")

/-- Model of `SetLoss.__init__(loss)` (lines 297–299): store the inner loss and copy
its input-variable list. -/
def mkSetLoss (l : LossT) : LossT := .setLoss l.input_var l

/-- An enumeration of a Python `set` of strings as a list, abstracting
CPython's hash-dependent iteration order: any duplicate-free listing of
exactly the set's elements. -/
structure SetEnum where
  enum : List String → List String
  nodup : ∀ xs, (enum xs).Nodup
  mem : ∀ xs x, x ∈ enum xs ↔ x ∈ xs

/-- The `_input_var` computed by the base `Loss.__init__(p, q, input_var)`
(lines 12–23): an explicit list wins; otherwise `p.input_var` is copied, and
only when `q` is present is `q.input_var` appended and the result
deduplicated to first-occurrence order. -/
def lossBaseInputVar (p : Distribution) (q : Option Distribution)
    (iv? : Option (List String)) : List String :=
  match iv? with
  | some iv => iv
  | none =>
      match q with
      | none => p.input_var
      | some qq => dedupFirst (p.input_var ++ qq.input_var)

/-- Model of `Expectation.__init__(p, f, input_var, sample_shape)` (lines 328–335).
With `input_var` omitted the code computes
`list(set(p.input_var) | set(f.input_var) - set(p.var))`; by Python operator
precedence the difference binds before the union, and `list` enumerates the
resulting set in the interpreter's set order `E`.  The list handed to
`E.enum` has exactly that set's membership. -/
def mkExpectation (E : SetEnum) (p : Distribution) (f : LossT)
    (iv? : Option (List String)) (shape : List Nat) : LossT :=
  let iv :=
    match iv? with
    | some iv => iv
    | none => E.enum (p.input_var ++ f.input_var.filter (fun x => !(p.var.contains x)))
  .expectation p iv f shape

/-- The symbolic (sympy) expression attached to a loss node. -/
inductive LossSym where
  | num (q : ℚ)
  | sym (s : String)
  | add (a b : LossSym)
  | sub (a b : LossSym)
  | mul (a b : LossSym)
  | div (a b : LossSym)
  | neg (a : LossSym)
deriving DecidableEq, Repr

/-- A rendering of a symbolic expression to text, standing in for
`sympy.latex` in `Loss.loss_text` (line 36). -/
def LossSym.render : LossSym → String
  | .num q => toString q
  | .sym s => s
  | .add a b => "(" ++ a.render ++ " + " ++ b.render ++ ")"
  | .sub a b => "(" ++ a.render ++ " - " ++ b.render ++ ")"
  | .mul a b => "(" ++ a.render ++ " * " ++ b.render ++ ")"
  | .div a b => "(" ++ a.render ++ " / " ++ b.render ++ ")"
  | .neg a => "(-" ++ a.render ++ ")"

def symOfOp (k : OpKind) : LossSym → LossSym → LossSym
  | a, b =>
    match k with
    | .add => .add a b
    | .sub => .sub a b
    | .mul => .mul a b
    | .div => .div a b

/-- Model of `self._symbol` for each node class.  Binary nodes combine the operands'
symbols (an absent or non-`Loss` operand has no `_symbol` attribute);
`AbsLoss`/`BatchMean`/`BatchSum`/`Expectation` wrap the child's rendered
`loss_text` in a fresh opaque symbol (lines 249, 269, 289, 338–340). -/
def symbolOf : LossT → Except PyError LossSym
  | .valueLoss v => .ok (.num v)
  | .parameter n => .ok (.sym n)
  | .pyNoneOperand => .error .attributeError
  | .invalidOperand _ => .error .attributeError
  | .binOp k _ l r => do
      let s₁ ← symbolOf l
      let s₂ ← symbolOf r
      pure (symOfOp k s₁ s₂)
  | .unOp .neg _ c => do
      let s ← symbolOf c
      pure (.neg s)
  | .unOp .abs _ c => do
      let s ← symbolOf c
      pure (.sym ("|" ++ s.render ++ "|"))
  | .unOp .batchMean _ c => do
      let s ← symbolOf c
      pure (.sym ("mean \\left(" ++ s.render ++ " \\right)"))
  | .unOp .batchSum _ c => do
      let s ← symbolOf c
      pure (.sym ("sum \\left(" ++ s.render ++ " \\right)"))
  | .setLoss _ c => symbolOf c
  | .expectation p _ f _ => do
      let s ← symbolOf f
      pure (.sym ("\\mathbb\x7bE\x7d_\x7b" ++ p.prob_text ++ "\x7d \\left["
        ++ s.render ++ " \\right]"))

/-- Holds (as `true`) for trees that contain no `Expectation` node. -/
def noExpectation : LossT → Bool
  | .valueLoss _ => true
  | .parameter _ => true
  | .pyNoneOperand => true
  | .invalidOperand _ => true
  | .binOp _ _ l r => noExpectation l && noExpectation r
  | .unOp _ _ c => noExpectation c
  | .setLoss _ c => noExpectation c
  | .expectation _ _ _ _ => false

/-! ## First-occurrence deduplication: the theory of `sorted(set(xs), key=xs.index)` -/

/-- Python's `xs.index(y)`: the index of the first occurrence of `y` in `xs` (the sort
key used on lines 22 and 148). -/
def firstIdx : List String → String → Nat
  | [], _ => 0
  | x :: xs, y => if x = y then 0 else firstIdx xs y + 1

theorem dedupFirst_mem (l : List String) (y : String) : y ∈ dedupFirst l ↔ y ∈ l := by
  induction l with
  | nil => simp [dedupFirst]
  | cons x xs ih =>
      simp only [dedupFirst, List.mem_cons, List.mem_filter, ih, decide_eq_true_iff]
      constructor
      · rintro (rfl | ⟨hy, _⟩)
        · exact Or.inl rfl
        · exact Or.inr hy
      · rintro (rfl | hy)
        · exact Or.inl rfl
        · by_cases hyx : y = x
          · exact Or.inl hyx
          · exact Or.inr ⟨hy, hyx⟩

theorem dedupFirst_nodup (l : List String) : (dedupFirst l).Nodup := by
  induction l with
  | nil => simp [dedupFirst]
  | cons x xs ih =>
      rw [dedupFirst]
      refine List.nodup_cons.2 ⟨?_, ih.filter _⟩
      intro hx
      have := (List.mem_filter.1 hx).2
      simp at this

theorem dedupFirst_pairwise (l : List String) :
    (dedupFirst l).Pairwise (fun u v => firstIdx l u < firstIdx l v) := by
  induction l with
  | nil => simp [dedupFirst]
  | cons x xs ih =>
      rw [dedupFirst]
      refine List.Pairwise.cons ?_ ?_
      · intro v hv
        have hvx : ¬ (x = v) := by
          have := (List.mem_filter.1 hv).2
          simp only [decide_eq_true_iff] at this
          exact fun h' => this h'.symm
        rw [firstIdx, firstIdx, if_pos rfl, if_neg hvx]
        exact Nat.succ_pos _
      · refine List.Pairwise.imp_of_mem ?_ (ih.filter _)
        intro u v hu hv huv
        have hxu : ¬ (x = u) := by
          have := (List.mem_filter.1 hu).2
          simp only [decide_eq_true_iff] at this
          exact fun h' => this h'.symm
        have hxv : ¬ (x = v) := by
          have := (List.mem_filter.1 hv).2
          simp only [decide_eq_true_iff] at this
          exact fun h' => this h'.symm
        rw [firstIdx, firstIdx, if_neg hxu, if_neg hxv]
        exact Nat.succ_lt_succ huv

/-- The specification-side characterisation of "the concatenation with
duplicates removed, keeping the first occurrence of each name in order":
duplicate-free, same membership as `orig`, and listed in increasing order of
first occurrence in `orig`. -/
def IsFirstOccurrenceDedup (orig out : List String) : Prop :=
  out.Nodup ∧ (∀ x, x ∈ out ↔ x ∈ orig) ∧
    out.Pairwise (fun u v => firstIdx orig u < firstIdx orig v)

theorem dedupFirst_isFirstOccurrenceDedup (l : List String) :
    IsFirstOccurrenceDedup l (dedupFirst l) :=
  ⟨dedupFirst_nodup l, fun y => dedupFirst_mem l y, dedupFirst_pairwise l⟩

/-- Any list satisfying `IsFirstOccurrenceDedup orig` equals
`dedupFirst orig`: in particular Python's `sorted(set(orig), key=orig.index)`
(duplicate-free, membership of `set(orig)`, sorted by first index) is
`dedupFirst orig`, which justifies the model. -/
theorem firstOccurrenceDedup_unique {l out : List String}
    (h : IsFirstOccurrenceDedup l out) : out = dedupFirst l := by
  obtain ⟨hn, hm, hp⟩ := h
  obtain ⟨hn', hm', hp'⟩ := dedupFirst_isFirstOccurrenceDedup l
  have hperm : out.Perm (dedupFirst l) :=
    (List.perm_ext_iff_of_nodup hn hn').2 (fun a => (hm a).trans (hm' a).symm)
  haveI : IsAntisymm String (fun u v => firstIdx l u < firstIdx l v) :=
    ⟨fun a b h1 h2 => absurd h2 (Nat.lt_asymm h1)⟩
  exact List.eq_of_perm_of_sorted hperm hp hp'

/-- One admissible iteration order for Python sets, used to instantiate
`SetEnum` at concrete inputs (CPython's true order is hash-dependent; every
property proved through `SetEnum` holds for all admissible orders). -/
def pyHashEnum : SetEnum :=
  ⟨dedupFirst, dedupFirst_nodup, dedupFirst_mem⟩

/-! ## Basic facts about validation and evaluation -/

theorem validKeys_iff (iv : List String) (e : Env) :
    validKeys iv e = true ↔ ∀ n ∈ iv, n ∈ envKeys e := by
  simp [validKeys, List.all_eq_true, List.contains, List.elem_iff]

theorem eval_of_valid {t : LossT} {x : Env} (ω : Nat)
    (h : validKeys t.input_var x = true) : eval ω t x = getEval ω t x := by
  simp [eval, h]

theorem eval_ok_iff {t : LossT} {x : Env} {ω : Nat} {r : Value × Env} :
    eval ω t x = .ok r ↔ validKeys t.input_var x = true ∧ getEval ω t x = .ok r := by
  unfold eval
  by_cases h : validKeys t.input_var x = true
  · simp [h]
  · simp [h]

/-! ## C1: input variables of binary composites -/

/-- C1: for every pair of `Loss` operands `a`, `b`, the node built by
`LossOperator.__init__` (hence by `AddLoss`, `SubLoss`, `MulLoss`,
`DivLoss`) has `input_var` equal to the concatenation of `a.input_var` and
`b.input_var` with duplicates removed, keeping the first occurrence of each
name in order. -/
theorem lossOperator_input_var_firstOccurrence (k : OpKind) (a b : LossT) :
    ∃ iv, mkLossOperator k (.loss a) (.loss b) = .ok (.binOp k iv a b) ∧
      IsFirstOccurrenceDedup (a.input_var ++ b.input_var) iv :=
  ⟨_, rfl, dedupFirst_isFirstOccurrenceDedup _⟩

/-! ## C2: default input variables of `Expectation` -/

/-- Modelled from the claim's words, for comparison with the code: the
claimed default input-variable collection of `Expectation(p, f)`, namely
`(p.input_var ∪ f.input_var) − p.var`. -/
def claimedExpectationInputVar (p : Distribution) (f : LossT) : List String :=
  (p.input_var ++ f.input_var).filter (fun x => !(p.var.contains x))

/-- A distribution whose `input_var` and `var` overlap, on which the two
precedence readings of line 331 disagree. -/
def pOverlap : Distribution := ⟨["x"], ["x"], "p", fun _ e _ => e⟩

/-- C2 counterexample: for `p` with `input_var = var = ["x"]` and `f` with no
input variables, the code's defaulted `input_var` contains `"x"` (Python
computes `set(p.input_var) | (set(f.input_var) - set(p.var))`), while the
claimed collection `(p.input_var ∪ f.input_var) − p.var` does not. -/
theorem expectation_default_input_var_precedence_cex :
    "x" ∈ (mkExpectation pyHashEnum pOverlap (.valueLoss 0) none []).input_var ∧
      "x" ∉ claimedExpectationInputVar pOverlap (.valueLoss 0) := by
  constructor
  · decide
  · decide

/-- C2 amended: for every admissible set-enumeration, `Expectation(p, f)`
constructed with `input_var` omitted has `input_var` equal, as a collection
of names, to `p.input_var ∪ (f.input_var − p.var)` — the set difference
binds before the union, per Python operator precedence. -/
theorem expectation_default_input_var_mem (E : SetEnum) (p : Distribution)
    (f : LossT) (shape : List Nat) (x : String) :
    x ∈ (mkExpectation E p f none shape).input_var ↔
      x ∈ p.input_var ∨ (x ∈ f.input_var ∧ x ∉ p.var) := by
  show x ∈ E.enum _ ↔ _
  rw [E.mem]
  simp [List.mem_filter, List.contains, List.elem_iff]

/-! ## C3: the validation `ValueError` of `eval` -/

theorem applyOp_ne_valueError (k : OpKind) (a b : Value) (m : String) :
    applyOp k a b ≠ .error (.valueError m) := by
  cases a <;> cases b <;> simp only [applyOp] <;> (try split) <;> simp

theorem applyUn_ne_valueError (k : UnKind) (v : Value) (m : String) :
    applyUn k v ≠ .error (.valueError m) := by
  cases k <;> cases v <;> simp [applyUn]

/-- On an `Expectation`-free tree, `_get_eval` never raises `ValueError`:
the only `raise ValueError` reachable during evaluation is the validation
check of `Loss.eval`, which `_get_eval` recursion bypasses except through
`Expectation`'s call to `self._f.eval`. -/
theorem getEval_ne_valueError {t : LossT} (ht : noExpectation t = true) :
    ∀ (ω : Nat) (x : Env) (m : String), getEval ω t x ≠ .error (.valueError m) := by
  induction t with
  | valueLoss v => intro ω x m; simp [getEval]
  | parameter n =>
      intro ω x m; rw [getEval]; cases envLookup x n <;> simp
  | pyNoneOperand => intro ω x m; simp [getEval]
  | invalidOperand ty => intro ω x m; simp [getEval]
  | binOp k iv l r ihl ihr =>
      rw [noExpectation, Bool.and_eq_true] at ht
      intro ω x m
      cases h1 : getEval ω l x with
      | error e =>
          simp only [getEval, h1]
          intro hc
          injection hc with h
          subst h
          exact ihl ht.1 ω x m h1
      | ok p1 =>
          obtain ⟨v₁, x₁⟩ := p1
          cases h2 : getEval ω r x with
          | error e =>
              simp only [getEval, h1, h2]
              intro hc
              injection hc with h
              subst h
              exact ihr ht.2 ω x m h2
          | ok p2 =>
              obtain ⟨v₂, x₂⟩ := p2
              cases h3 : applyOp k v₁ v₂ with
              | error e =>
                  simp only [getEval, h1, h2, h3]
                  intro hc
                  injection hc with h
                  subst h
                  exact applyOp_ne_valueError k v₁ v₂ m h3
              | ok v => simp [getEval, h1, h2, h3]
  | unOp k iv c ih =>
      rw [noExpectation] at ht
      intro ω x m
      cases h1 : getEval ω c x with
      | error e =>
          simp only [getEval, h1]
          intro hc
          injection hc with h
          subst h
          exact ih ht ω x m h1
      | ok p1 =>
          obtain ⟨v, x'⟩ := p1
          cases h2 : applyUn k v with
          | error e =>
              simp only [getEval, h1, h2]
              intro hc
              injection hc with h
              subst h
              exact applyUn_ne_valueError k v m h2
          | ok v' => simp [getEval, h1, h2]
  | setLoss iv c ih =>
      rw [noExpectation] at ht
      intro ω x m
      rw [getEval]
      exact ih ht ω x m
  | expectation p iv f shape ih =>
      rw [noExpectation] at ht
      exact absurd ht (by simp)

/-- A distribution that samples the variable `"y"` but whose `sample` method
violates the `return_all` contract, returning an empty environment. -/
def pEmptySampler : Distribution := ⟨[], ["y"], "q", fun _ _ _ => []⟩

/-- C3 counterexample: two evaluations refuting the claim as stated.
First, the `Expectation` of `Parameter("y")` under `pEmptySampler` has an
empty `input_var`, so nothing is missing from the empty environment, yet
`eval` raises the validation `ValueError` (from the nested `f.eval` call on
line 345).  Second, `DivLoss(1, 0)` has empty `input_var` and the empty
environment is a (trivial) superset, yet `eval` raises `ZeroDivisionError`
rather than succeeding. -/
theorem eval_valueError_iff_missing_cex :
    ((mkExpectation pyHashEnum pEmptySampler (.parameter "y") none []).input_var = [] ∧
      eval 0 (mkExpectation pyHashEnum pEmptySampler (.parameter "y") none []) [] =
        .error (.valueError (invalidMsg []))) ∧
    (∃ t, mkLossOperator .div (.num 1) (.num 0) = .ok t ∧
      t.input_var = [] ∧ eval 0 t [] = .error .zeroDivisionError) := by
  exact ⟨⟨rfl, rfl⟩, _, rfl, rfl, rfl⟩

/-- C3 amended: for `Expectation`-free trees, `eval` raises the validation
`ValueError` exactly when some name in `input_var` is missing from the
environment's keys; with no name missing, the validation error cannot occur
(though evaluation may still fail with other exception classes, and trees
containing `Expectation` may raise the validation `ValueError` from nested
evaluation even with a covering environment). -/
theorem eval_valueError_iff_missing (t : LossT) (x : Env) (ω : Nat)
    (ht : noExpectation t = true) :
    (∃ m, eval ω t x = .error (.valueError m)) ↔
      ¬ (∀ n ∈ t.input_var, n ∈ envKeys x) := by
  constructor
  · rintro ⟨m, hm⟩ hall
    have hv : validKeys t.input_var x = true := (validKeys_iff _ _).2 hall
    rw [eval_of_valid ω hv] at hm
    exact getEval_ne_valueError ht ω x m hm
  · intro hmiss
    refine ⟨invalidMsg x, ?_⟩
    have hv : validKeys t.input_var x = false := by
      cases h : validKeys t.input_var x
      · rfl
      · exact absurd ((validKeys_iff _ _).1 h) hmiss
    simp [eval, hv]

/-- C3 witness: the amended theorem applied to `Parameter("w")` and the
empty environment. -/
theorem eval_valueError_iff_missing_witness :
    noExpectation (.parameter "w") = true ∧
      ((∃ m, eval 0 (.parameter "w") [] = .error (.valueError m)) ↔
        ¬ (∀ n ∈ (LossT.parameter "w").input_var, n ∈ envKeys ([] : Env))) :=
  ⟨rfl, eval_valueError_iff_missing (.parameter "w") [] 0 rfl⟩

/-! ## C9: determinism of `Expectation`-free evaluation -/

/-- `_get_eval` on an `Expectation`-free tree does not consume randomness:
its result is the same under any two seeds. -/
theorem getEval_seed_irrelevant {t : LossT} (ht : noExpectation t = true) :
    ∀ (ω₁ ω₂ : Nat) (x : Env), getEval ω₁ t x = getEval ω₂ t x := by
  induction t with
  | valueLoss v => intro ω₁ ω₂ x; rfl
  | parameter n => intro ω₁ ω₂ x; rfl
  | pyNoneOperand => intro ω₁ ω₂ x; rfl
  | invalidOperand ty => intro ω₁ ω₂ x; rfl
  | binOp k iv l r ihl ihr =>
      rw [noExpectation, Bool.and_eq_true] at ht
      intro ω₁ ω₂ x
      simp only [getEval]
      rw [ihl ht.1 ω₁ ω₂ x, ihr ht.2 ω₁ ω₂ x]
  | unOp k iv c ih =>
      rw [noExpectation] at ht
      intro ω₁ ω₂ x
      simp only [getEval]
      rw [ih ht ω₁ ω₂ x]
  | setLoss iv c ih =>
      rw [noExpectation] at ht
      intro ω₁ ω₂ x
      simp only [getEval]
      exact ih ht ω₁ ω₂ x
  | expectation p iv f shape ih =>
      rw [noExpectation] at ht
      exact absurd ht (by simp)

/-- C9: evaluation of a tree containing no `Expectation` node is a
deterministic function of the tree and the supplied environment — two calls
with equal inputs, whatever randomness the interpreter holds, return
identical results. -/
theorem eval_deterministic (t : LossT) (x : Env) (ω₁ ω₂ : Nat)
    (ht : noExpectation t = true) : eval ω₁ t x = eval ω₂ t x := by
  unfold eval
  rw [getEval_seed_irrelevant ht ω₁ ω₂ x]

/-- C9 witness: determinism at a concrete tree and environment. -/
theorem eval_deterministic_witness :
    noExpectation (.parameter "u") = true ∧
      eval 0 (.parameter "u") [("u", .scalar 1)] = eval 7 (.parameter "u") [("u", .scalar 1)] :=
  ⟨rfl, eval_deterministic (.parameter "u") [("u", .scalar 1)] 0 7 rfl⟩

/-! ## C10: nested validation inside `Expectation` evaluation -/

/-- C10: `Expectation._get_eval` evaluates the inner loss through the public
`eval` entry point (line 345), so whenever the environment returned by
`p.sample` misses a name of `f.input_var`, evaluation raises the validation
`ValueError` — even when the caller's environment covers the `Expectation`
node's own `input_var`. -/
theorem expectation_inner_eval_validation (E : SetEnum) (p : Distribution)
    (f : LossT) (iv? : Option (List String)) (shape : List Nat) (x : Env) (ω : Nat)
    (hvalid : validKeys (mkExpectation E p f iv? shape).input_var x = true)
    (hmiss : validKeys f.input_var (p.sample ω x shape) = false) :
    eval ω (mkExpectation E p f iv? shape) x =
      .error (.valueError (invalidMsg (p.sample ω x shape))) := by
  obtain ⟨iv, hiv⟩ : ∃ iv, mkExpectation E p f iv? shape = .expectation p iv f shape := by
    cases iv? <;> exact ⟨_, rfl⟩
  rw [hiv] at hvalid ⊢
  rw [eval_of_valid ω hvalid, getEval]
  simp [hmiss]

/-- C10 witness: under `pEmptySampler` the sampled environment misses
`"y"`, and evaluation of the `Expectation` raises the validation
`ValueError` although the caller's environment covers its `input_var`. -/
theorem expectation_inner_eval_validation_witness :
    validKeys (mkExpectation pyHashEnum pEmptySampler (.parameter "y") none []).input_var [] = true ∧
      validKeys (LossT.parameter "y").input_var (pEmptySampler.sample 0 [] []) = false ∧
      eval 0 (mkExpectation pyHashEnum pEmptySampler (.parameter "y") none []) [] =
        .error (.valueError (invalidMsg (pEmptySampler.sample 0 [] []))) :=
  ⟨rfl, rfl,
    expectation_inner_eval_validation pyHashEnum pEmptySampler (.parameter "y") none [] [] 0 rfl rfl⟩

/-! ## C4: arithmetic compositionality of evaluation -/

theorem validKeys_congr {iv₁ iv₂ : List String} (h : ∀ n, n ∈ iv₁ ↔ n ∈ iv₂) (e : Env) :
    validKeys iv₁ e = validKeys iv₂ e := by
  rw [Bool.eq_iff_iff, validKeys_iff, validKeys_iff]
  constructor
  · intro hall n hn
    exact hall n ((h n).2 hn)
  · intro hall n hn
    exact hall n ((h n).1 hn)

/-- C4: for operands `a`, `b` whose individual evaluations succeed on `env`,
the composite built by each binary operator evaluates to the corresponding
arithmetic combination of the operands' values (with the operands' returned
environments merged, the second overwriting the first), and the negation
evaluates to the negated value. -/
theorem binary_unary_eval_arithmetic (ω : Nat) (x : Env) (a b : LossT)
    (va vb : Value) (ea eb : Env)
    (ha : eval ω a x = .ok (va, ea)) (hb : eval ω b x = .ok (vb, eb)) :
    (∀ k, ∃ t, mkLossOperator k (.loss a) (.loss b) = .ok t ∧
        eval ω t x = (applyOp k va vb).map (fun v => (v, envUpdate ea eb))) ∧
      (∃ tn, mkLossSelfOperator .neg (.loss a) = .ok tn ∧
        eval ω tn x = .ok (negValue va, ea)) := by
  obtain ⟨hva, hga⟩ := eval_ok_iff.1 ha
  obtain ⟨hvb, hgb⟩ := eval_ok_iff.1 hb
  constructor
  · intro k
    refine ⟨_, rfl, ?_⟩
    have hv : validKeys
        (LossT.binOp k (dedupFirst (a.input_var ++ b.input_var)) a b).input_var x = true := by
      show validKeys (dedupFirst (a.input_var ++ b.input_var)) x = true
      rw [validKeys_congr (fun n => dedupFirst_mem _ n) x, validKeys_iff]
      intro n hn
      rcases List.mem_append.1 hn with h' | h'
      · exact (validKeys_iff _ _).1 hva n h'
      · exact (validKeys_iff _ _).1 hvb n h'
    rw [eval_of_valid ω hv]
    cases h3 : applyOp k va vb with
    | error e => simp [getEval, hga, hgb, h3, Except.map]
    | ok v => simp [getEval, hga, hgb, h3, Except.map]
  · refine ⟨_, rfl, ?_⟩
    have hv : validKeys (LossT.unOp .neg a.input_var a).input_var x = true := hva
    rw [eval_of_valid ω hv]
    simp [getEval, hga, applyUn]

/-- C4 witness: the compositionality theorem applied to `Parameter("u")` and
`ValueLoss(2)` on the environment binding `"u"` to the number `3`. -/
theorem binary_unary_eval_arithmetic_witness :
    (∀ k, ∃ t, mkLossOperator k (.loss (.parameter "u")) (.loss (.valueLoss 2)) = .ok t ∧
        eval 0 t [("u", .scalar 3)] =
          (applyOp k (.scalar 3) (.scalar 2)).map
            (fun v => (v, envUpdate [("u", .scalar 3)] [("u", .scalar 3)]))) ∧
      (∃ tn, mkLossSelfOperator .neg (.loss (.parameter "u")) = .ok tn ∧
        eval 0 tn [("u", .scalar 3)] = .ok (negValue (.scalar 3), [("u", .scalar 3)])) :=
  binary_unary_eval_arithmetic 0 [("u", .scalar 3)] (.parameter "u") (.valueLoss 2)
    (.scalar 3) (.scalar 2) [("u", .scalar 3)] [("u", .scalar 3)] rfl rfl

/-! ## C5: operand type checking of the binary constructors -/

/-- Whether an operand is a `Loss` instance or a plain number. -/
def Operand.isLossOrNum : Operand → Bool
  | .loss _ => true
  | .num _ => true
  | .pyNone => false
  | .other _ => false

/-- C5 counterexample: a first operand that is neither a `Loss` nor a number
(here a string) is accepted without any error when the second operand is
`None` — the check on line 134 tests `loss2`, not `loss1` — refuting the
claim that the error is raised regardless of the second operand. -/
theorem lossOperator_invalid_first_operand_cex :
    ∃ t, mkLossOperator .add (.other "str") .pyNone = .ok t ∧
      (Operand.other "str").isLossOrNum = false :=
  ⟨_, rfl, rfl⟩

/-- C5 amended: a first operand that is neither a `Loss` nor a number raises
a `ValueError` naming both operand types exactly when the second operand is
not `None`; with a `None` second operand the invalid first operand is
accepted unchecked.  A second operand that is neither a `Loss`, a number,
nor `None` always raises a `ValueError` naming both types. -/
theorem lossOperator_operand_type_errors (k : OpKind) :
    (∀ o₁ o₂, o₁.isLossOrNum = false → o₂ ≠ .pyNone →
        mkLossOperator k o₁ o₂ =
          .error (.valueError (opErrMsg o₁.typeName o₂.typeName))) ∧
      (∀ o₁ o₂, o₁.isLossOrNum = false → o₂ = .pyNone →
        ∃ t, mkLossOperator k o₁ o₂ = .ok t) ∧
      (∀ o₁ ty, o₁.isLossOrNum = true →
        mkLossOperator k o₁ (.other ty) =
          .error (.valueError (opErrMsg ty "Loss"))) := by
  refine ⟨?_, ?_, ?_⟩
  · intro o₁ o₂ h1 h2
    cases o₁ with
    | loss t => simp [Operand.isLossOrNum] at h1
    | num n => simp [Operand.isLossOrNum] at h1
    | pyNone =>
        cases o₂ with
        | loss t => rfl
        | num n => rfl
        | pyNone => exact absurd rfl h2
        | other ty => rfl
    | other ty =>
        cases o₂ with
        | loss t => rfl
        | num n => rfl
        | pyNone => exact absurd rfl h2
        | other ty2 => rfl
  · intro o₁ o₂ h1 h2
    subst h2
    cases o₁ with
    | loss t => simp [Operand.isLossOrNum] at h1
    | num n => simp [Operand.isLossOrNum] at h1
    | pyNone => exact ⟨_, rfl⟩
    | other ty => exact ⟨_, rfl⟩
  · intro o₁ ty h1
    cases o₁ with
    | loss t => rfl
    | num n => rfl
    | pyNone => simp [Operand.isLossOrNum] at h1
    | other ty2 => simp [Operand.isLossOrNum] at h1

/-- C5 witness: a string first operand with a numeric second operand raises
the `ValueError` naming both operand types. -/
theorem lossOperator_operand_type_errors_witness :
    mkLossOperator .add (.other "str") (.num 1) =
      .error (.valueError (opErrMsg (Operand.other "str").typeName
        (Operand.num 1).typeName)) :=
  (lossOperator_operand_type_errors .add).1 (.other "str") (.num 1) rfl
    (fun h => Operand.noConfusion h)

/-! ## C6: the duplicate-freeness / ordering invariant of `input_var` -/

/-- A distribution whose advertised `input_var` contains a duplicate. -/
def pDupVars : Distribution := ⟨["x", "x"], [], "p", fun _ e _ => e⟩

/-- C6 counterexample: the base `Loss.__init__` with `q` absent copies
`p.input_var` verbatim (the deduplication on line 22 runs only under
`q is not None`), so a duplicated `p.input_var` yields a node whose
`input_var` list contains duplicates. -/
theorem constructors_input_var_cex :
    lossBaseInputVar pDupVars none none = ["x", "x"] ∧
      ¬ (lossBaseInputVar pDupVars none none).Nodup :=
  ⟨rfl, by decide⟩

/-- C6 amended: the binary operator constructor always produces a
duplicate-free `input_var` in first-occurrence order across its children;
the unary operator and `SetLoss` constructors copy the child's list
verbatim (duplicate-free in first-occurrence order whenever the child's
is); the base `Loss.__init__` deduplicates to first-occurrence order only
when `q` is supplied, and with `q` absent copies `p.input_var` verbatim,
preserving any duplicates; `Expectation`'s defaulted `input_var` is
duplicate-free but is listed in set-enumeration order, not first-occurrence
order. -/
theorem constructors_input_var_invariant :
    (∀ (k : OpKind) (a b t : LossT),
        mkLossOperator k (.loss a) (.loss b) = .ok t →
          t.input_var.Nodup ∧
            IsFirstOccurrenceDedup (a.input_var ++ b.input_var) t.input_var) ∧
      (∀ (k : UnKind) (c t : LossT), mkLossSelfOperator k (.loss c) = .ok t →
        t.input_var = c.input_var) ∧
      (∀ l : LossT, (mkSetLoss l).input_var = l.input_var) ∧
      (∀ p q : Distribution,
        IsFirstOccurrenceDedup (p.input_var ++ q.input_var)
          (lossBaseInputVar p (some q) none)) ∧
      (∀ p : Distribution, lossBaseInputVar p none none = p.input_var) ∧
      (∀ (E : SetEnum) (p : Distribution) (f : LossT) (shape : List Nat),
        ((mkExpectation E p f none shape).input_var).Nodup) := by
  refine ⟨?_, ?_, ?_, ?_, ?_, ?_⟩
  · intro k a b t ht
    have h : LossT.binOp k (dedupFirst (a.input_var ++ b.input_var)) a b = t := by
      injection ht
    subst h
    exact ⟨dedupFirst_nodup _, dedupFirst_isFirstOccurrenceDedup _⟩
  · intro k c t ht
    have h : LossT.unOp k c.input_var c = t := by
      injection ht
    subst h
    rfl
  · intro l
    rfl
  · intro p q
    exact dedupFirst_isFirstOccurrenceDedup _
  · intro p
    rfl
  · intro E p f shape
    exact E.nodup _

/-- C6 witness: the amended invariant applied to a concrete `AddLoss` of two
parameters. -/
theorem constructors_input_var_invariant_witness :
    (LossT.binOp .add
        (dedupFirst ((LossT.parameter "a").input_var ++ (LossT.parameter "b").input_var))
        (.parameter "a") (.parameter "b")).input_var.Nodup :=
  (constructors_input_var_invariant.1 .add (.parameter "a") (.parameter "b") _ rfl).1

/-! ## C7: batch reductions over the leading dimension -/

/-- C7: when `loss.eval(env)` yields a tensor `t`, `BatchMean(loss)` (built
by `LossSelfOperator.__init__`) evaluates on `env` to the mean of `t` over
its leading (batch) dimension and `BatchSum(loss)` to the corresponding
sum, each returning the same environment; for a single-element leading
dimension the two results coincide. -/
theorem batch_reduction_leading_dim (ω : Nat) (l : LossT) (x : Env)
    (t : List ℚ) (e' : Env)
    (h : eval ω l x = .ok (.tensor t, e')) :
    (∃ bm, mkLossSelfOperator .batchMean (.loss l) = .ok bm ∧
        eval ω bm x = .ok (.scalar (tensorMean t), e')) ∧
      (∃ bs, mkLossSelfOperator .batchSum (.loss l) = .ok bs ∧
        eval ω bs x = .ok (.scalar t.sum, e')) ∧
      (t.length = 1 → tensorMean t = t.sum) := by
  obtain ⟨hv, hg⟩ := eval_ok_iff.1 h
  refine ⟨⟨_, rfl, ?_⟩, ⟨_, rfl, ?_⟩, ?_⟩
  · have hv' : validKeys (LossT.unOp .batchMean l.input_var l).input_var x = true := hv
    rw [eval_of_valid ω hv']
    simp [getEval, hg, applyUn]
  · have hv' : validKeys (LossT.unOp .batchSum l.input_var l).input_var x = true := hv
    rw [eval_of_valid ω hv']
    simp [getEval, hg, applyUn]
  · intro h1
    simp [tensorMean, h1]

/-- C7 witness: the reduction theorem applied to `Parameter("x")` bound to a
one-element tensor. -/
theorem batch_reduction_leading_dim_witness :
    (∃ bm, mkLossSelfOperator .batchMean (.loss (.parameter "x")) = .ok bm ∧
        eval 0 bm [("x", .tensor [5])] =
          .ok (.scalar (tensorMean [5]), [("x", .tensor [5])])) ∧
      (∃ bs, mkLossSelfOperator .batchSum (.loss (.parameter "x")) = .ok bs ∧
        eval 0 bs [("x", .tensor [5])] =
          .ok (.scalar (List.sum [5]), [("x", .tensor [5])])) ∧
      (List.length [(5 : ℚ)] = 1 → tensorMean [5] = List.sum [5]) :=
  batch_reduction_leading_dim 0 (.parameter "x") [("x", .tensor [5])] [5]
    [("x", .tensor [5])] rfl

/-! ## C8: transparency of `SetLoss` -/

/-- C8: `SetLoss(l)` is observationally equivalent to `l`: it copies `l`'s
`input_var`, its `eval` agrees with `l`'s on every environment (validation
included, as both validate the same list), and its symbol is `l`'s symbol. -/
theorem setLoss_transparent (l : LossT) (x : Env) (ω : Nat) :
    (mkSetLoss l).input_var = l.input_var ∧
      eval ω (mkSetLoss l) x = eval ω l x ∧
      symbolOf (mkSetLoss l) = symbolOf l :=
  ⟨rfl, rfl, rfl⟩
